import Mathlib

/-!
Verification of the warnings-dashboard aggregation pipeline
(`internal/generator/generator.go` and the embedded browser-side
`parseMCDText`).  Network calls are embedded by passing each upstream
response explicitly; everything else is translated directly from the
source.
-/

namespace WDash

/-! ## Basic character and list-of-char utilities -/

/-- Case-insensitive (ASCII upper-folding) prefix match, mirroring a
JavaScript regex literal with the `i` flag. -/
def matchesCI : List Char → List Char → Bool
  | [], _ => true
  | _ :: _, [] => false
  | l :: ls, t :: ts => (l.toUpper == t.toUpper) && matchesCI ls ts

/-- Case-insensitive substring occurrence test. -/
def containsCI (pat : List Char) : List Char → Bool
  | [] => matchesCI pat []
  | c :: rest => matchesCI pat (c :: rest) || containsCI pat rest

/-- Find the first (case-sensitive) occurrence of `pat`, returning the text
before it and the text after it.  Models Go `strings.Index` /
JavaScript `indexOf` based splitting. -/
def splitAtSub (pat : List Char) : List Char → Option (List Char × List Char)
  | [] => if pat.isEmpty then some ([], []) else none
  | c :: rest =>
    if List.isPrefixOf pat (c :: rest) then
      some ([], (c :: rest).drop pat.length)
    else
      match splitAtSub pat rest with
      | some (a, b) => some (c :: a, b)
      | none => none

/-- Case-sensitive substring occurrence test. -/
def containsSub (pat : List Char) (cs : List Char) : Bool :=
  (splitAtSub pat cs).isSome

/-- Whitespace as recognised by JavaScript `\s` and `trim` (ASCII part). -/
def isSpaceJS (c : Char) : Bool :=
  c == ' ' || c == '\t' || c == '\n' || c == '\r' || c == '\x0b' || c == '\x0c'

/-- JavaScript line terminators excluded by `.` in a non-dotall regex. -/
def isLineBreak (c : Char) : Bool := c == '\n' || c == '\r'

/-- JavaScript `String.prototype.trim`. -/
def trimJS (cs : List Char) : List Char :=
  ((cs.dropWhile isSpaceJS).reverse.dropWhile isSpaceJS).reverse

/-- Go `strings.ReplaceAll`: replace every non-overlapping occurrence of
`pat` (left to right, the replacement text is not rescanned). -/
def replaceAllSub (pat repl : List Char) : List Char → List Char
  | [] => []
  | c :: rest =>
    if List.isPrefixOf pat (c :: rest) ∧ pat ≠ [] then
      repl ++ replaceAllSub pat repl (rest.drop (pat.length - 1))
    else
      c :: replaceAllSub pat repl rest
termination_by l => l.length
decreasing_by
  · simp only [List.length_cons]
    have h1 : (rest.drop (pat.length - 1)).length ≤ rest.length := by
      rw [List.length_drop]; omega
    omega
  · simp

/-! ## Model of Go `time.Parse(time.RFC3339, s)`

The result is the epoch-second instant, enough to evaluate the alert
filter's `exp.Before(now)` comparison. -/

def digitVal (c : Char) : Option Nat :=
  if c.isDigit then some (c.toNat - 48) else none

def parse2 : List Char → Option (Nat × List Char)
  | a :: b :: rest =>
    match digitVal a, digitVal b with
    | some x, some y => some (10 * x + y, rest)
    | _, _ => none
  | _ => none

def parse4 : List Char → Option (Nat × List Char)
  | a :: b :: c :: d :: rest =>
    match digitVal a, digitVal b, digitVal c, digitVal d with
    | some x, some y, some z, some w => some (1000 * x + 100 * y + 10 * z + w, rest)
    | _, _, _, _ => none
  | _ => none

def expectChar (c : Char) : List Char → Option (List Char)
  | x :: rest => if x = c then some rest else none
  | [] => none

def isLeapYear (y : Nat) : Bool :=
  (y % 4 == 0 && y % 100 != 0) || y % 400 == 0

def daysInMonth (y m : Nat) : Nat :=
  if m = 2 then (if isLeapYear y then 29 else 28)
  else if m = 4 ∨ m = 6 ∨ m = 9 ∨ m = 11 then 30
  else 31

/-- Days from the civil epoch 1970-01-01 (proleptic Gregorian), for years
of the form parsed from four digits. -/
def daysFromCivil (y m d : Nat) : Int :=
  let y' := if m ≤ 2 then y - 1 else y
  let era := y' / 400
  let yoe := y' % 400
  let mp := (m + 9) % 12
  let doy := (153 * mp + 2) / 5 + d - 1
  let doe := yoe * 365 + yoe / 4 - yoe / 100 + doy
  (era * 146097 + doe : Int) - 719468

/-- Optional fractional seconds accepted (and truncated) by Go's parser. -/
def skipFrac : List Char → Option (List Char)
  | '.' :: rest =>
    if (rest.takeWhile Char.isDigit).isEmpty then none
    else some (rest.dropWhile Char.isDigit)
  | cs => some cs

/-- Numeric time zone offset or `Z`, in seconds east of UTC. -/
def parseOffset : List Char → Option Int
  | ['Z'] => some 0
  | c :: rest =>
    if c = '+' ∨ c = '-' then
      match parse2 rest with
      | some (hh, ':' :: r2) =>
        match parse2 r2 with
        | some (mm, []) =>
          if hh ≤ 23 ∧ mm ≤ 59 then
            some ((if c = '+' then 1 else -1) * (hh * 3600 + mm * 60 : Nat))
          else none
        | _ => none
      | _ => none
    else none
  | [] => none

/-- Model of `time.Parse(time.RFC3339, s)`, yielding epoch seconds. -/
def parseRFC3339 (s : String) : Option Int := do
  let (y, r) ← parse4 s.toList
  let r ← expectChar '-' r
  let (mo, r) ← parse2 r
  let r ← expectChar '-' r
  let (d, r) ← parse2 r
  let r ← expectChar 'T' r
  let (h, r) ← parse2 r
  let r ← expectChar ':' r
  let (mi, r) ← parse2 r
  let r ← expectChar ':' r
  let (se, r) ← parse2 r
  let r ← skipFrac r
  let off ← parseOffset r
  if 1 ≤ mo ∧ mo ≤ 12 ∧ 1 ≤ d ∧ d ≤ daysInMonth y mo ∧ h ≤ 23 ∧ mi ≤ 59 ∧ se ≤ 59 then
    some (daysFromCivil y mo d * 86400 + (h * 3600 + mi * 60 + se : Nat) - off)
  else none

/-! ## Data model of `generator.go` -/

/-- GeoGeometry mirrors the GeoJSON geometry object; `coordinates` holds the
raw JSON text (Go `json.RawMessage`). -/
structure GeoGeometry where
  typ : String
  coordinates : String
deriving DecidableEq, Repr

/-- The decoded `geocode` object of one upstream alert feature.  `none`
models a Go nil slice (field absent or `null` upstream). -/
structure Geocode where
  UGC : Option (List String)
  SAME : Option (List String)
deriving DecidableEq, Repr

/-- The decoded `properties` object of one upstream alert feature. -/
structure AlertProperties where
  id : String
  event : String
  description : String
  areaDesc : String
  severity : String
  status : String
  sent : String
  expires : String
  geocode : Geocode
deriving DecidableEq, Repr

/-- One upstream alert feature. -/
structure AlertFeature where
  geometry : Option GeoGeometry
  properties : AlertProperties
deriving DecidableEq, Repr

/-- WarningJSON is the shape written to warnings.json.  The `UGC`/`SAME`
fields keep the Go slice's nilability: `none` is a nil slice (serialized
as `null`), `some l` a non-nil slice. -/
structure WarningJSON where
  ID : String
  typ : String
  Description : String
  Area : String
  Severity : String
  Time : String
  ExpiresTime : String
  Geometry : Option GeoGeometry
  UGC : Option (List String)
  SAME : Option (List String)
deriving DecidableEq, Repr

/-- One page of the decoded NWS response: features plus the optional
pagination envelope (`none` models a nil `Pagination` pointer). -/
structure AlertsPage where
  features : List AlertFeature
  paginationNext : Option String
deriving DecidableEq, Repr

/-- Decidable equality for fetch outcomes, used to evaluate the concrete
scenarios. -/
instance exceptDecEq {ε α : Type} [DecidableEq ε] [DecidableEq α] :
    DecidableEq (Except ε α)
  | .error e, .error f =>
    if h : e = f then .isTrue (by rw [h])
    else .isFalse (by intro hh; cases hh; exact h rfl)
  | .error _, .ok _ => .isFalse (by intro hh; cases hh)
  | .ok _, .error _ => .isFalse (by intro hh; cases hh)
  | .ok a, .ok b =>
    if h : a = b then .isTrue (by rw [h])
    else .isFalse (by intro hh; cases hh; exact h rfl)

/-- Outcome of one paginated alert request, covering the four checks the
loop body makes in order. -/
inductive PageResult where
  | transportErr (msg : String)
  | readErr (msg : String)
  | badStatus (code : Nat) (snippet : String)
  | decodeErr (msg : String)
  | ok (page : AlertsPage)
deriving DecidableEq, Repr

def isErrPage : PageResult → Bool
  | .ok _ => false
  | _ => true

/-- Whether `exp.Before(now)` holds for a parsed expiry (false when the
timestamp fails to parse, mirroring `err == nil && exp.Before(now)`). -/
def expiredBefore (parse : String → Option Int) (now : Int) (expires : String) : Bool :=
  match parse expires with
  | some exp => exp < now
  | none => false

/-- Per-feature conversion inside the `fetchAllAlerts` loop: nil `UGC`/`SAME`
slices are normalized to empty, geometry is passed through. -/
def toWarning (f : AlertFeature) : WarningJSON :=
  let p := f.properties
  { ID := p.id
    typ := p.event
    Description := p.description
    Area := p.areaDesc
    Severity := p.severity
    Time := p.sent
    ExpiresTime := p.expires
    Geometry := f.geometry
    UGC := some (match p.geocode.UGC with | none => [] | some l => l)
    SAME := some (match p.geocode.SAME with | none => [] | some l => l) }

/-- The filtering loop over one page's features: drop non-`Actual` statuses,
drop features whose expiry parses to a time strictly before `now`. -/
def processFeatures (parse : String → Option Int) (now : Int) :
    List AlertFeature → List WarningJSON
  | [] => []
  | f :: rest =>
    if f.properties.status ≠ "Actual" then processFeatures parse now rest
    else if f.properties.expires ≠ "" ∧ expiredBefore parse now f.properties.expires then
      processFeatures parse now rest
    else toWarning f :: processFeatures parse now rest

/-- `url = Next` when the pagination envelope is present with a non-empty
next link, else `""` (loop exit). -/
def nextURL (page : AlertsPage) : String :=
  match page.paginationNext with
  | some s => if s ≠ "" then s else ""
  | none => ""

/-- The fixed first-page query URL. -/
def nwsAlertsURL : String :=
  "https://api.weather.gov/alerts/active?status=actual&event=Severe%20Thunderstorm%20Warning,Tornado%20Warning,Tornado%20Watch,Severe%20Thunderstorm%20Watch,Special%20Weather%20Statement"

/-- The pagination loop of `fetchAllAlerts`.  `http` gives each page's
outcome; `fuel` bounds the number of iterations (the Go loop would not
terminate on a cyclic next-link chain, modelled by `none`). -/
def fetchAllAlertsAux (http : String → PageResult) (parse : String → Option Int)
    (now : Int) : Nat → String → Option (Except String (List WarningJSON))
  | 0, _ => none
  | Nat.succ fuel, url =>
    if url = "" then some (.ok [])
    else
      match http url with
      | .transportErr e => some (.error ("HTTP GET failed: " ++ e))
      | .readErr e => some (.error ("read body failed: " ++ e))
      | .badStatus code snip =>
        some (.error ("NWS returned HTTP " ++ toString code ++ ": " ++ snip))
      | .decodeErr e => some (.error ("JSON decode failed: " ++ e))
      | .ok page =>
        match fetchAllAlertsAux http parse now fuel (nextURL page) with
        | none => none
        | some (.error e) => some (.error e)
        | some (.ok rest) => some (.ok (processFeatures parse now page.features ++ rest))

/-- `fetchAllAlerts` starts the pagination loop at the fixed query URL. -/
def fetchAllAlerts (http : String → PageResult) (parse : String → Option Int)
    (now : Int) (fuel : Nat) : Option (Except String (List WarningJSON)) :=
  fetchAllAlertsAux http parse now fuel nwsAlertsURL

/-- The sequence of URLs the pagination loop requests. -/
def requestTrace (http : String → PageResult) : Nat → String → List String
  | 0, _ => []
  | Nat.succ fuel, url =>
    if url = "" then []
    else
      url :: (match http url with
        | .ok page => requestTrace http fuel (nextURL page)
        | _ => [])

/-! ## Mesoscale discussions (`fetchMesoscaleDiscussions`, `fetchMCDText`) -/

/-- MesoscaleDiscussionJSON represents an MCD entry in the published file. -/
structure MesoscaleDiscussionJSON where
  ID : String
  Name : String
  FullText : String
  PopupInfo : String
  FileDate : Int
  Geometry : Option GeoGeometry
deriving DecidableEq, Repr

/-- The decoded `properties` object of one MapServer discussion feature. -/
structure MCDProperties where
  name : String
  folderpath : String
  popupinfo : String
  idpFiledate : Int
deriving DecidableEq, Repr

/-- One MapServer discussion feature; `geometry` is the nilable pointer. -/
structure MCDFeature where
  geometry : Option GeoGeometry
  properties : MCDProperties
deriving DecidableEq, Repr

/-- Go `strings.TrimPrefix(name, "MD ")`: the prefix is removed only when
present; otherwise the string is returned unchanged. -/
def trimMD (s : String) : String :=
  if List.isPrefixOf "MD ".toList s.toList then String.mk (s.toList.drop 3) else s

/-- The digit extraction the browser-side `extractMCDNumber` performs
(`String(name).replace(/[^0-9]/g, '')`): keep only digits. -/
def digitsOf (s : String) : String :=
  String.mk (s.toList.filter Char.isDigit)

/-- Model of the regex `(?s)<pre[^>]*>(.*?)</pre>` applied with
`FindSubmatch`: leftmost `<pre`, the rest of its tag up to the first `>`,
then a lazy capture up to the first `</pre>`. -/
def extractPreAux : List Char → Option (List Char)
  | [] => none
  | c :: rest =>
    if List.isPrefixOf "<pre".toList (c :: rest) then
      let afterTag := rest.drop 3
      let inTag := afterTag.dropWhile (· ≠ '>')
      match inTag with
      | [] => extractPreAux rest
      | _ :: body =>
        match splitAtSub "</pre>".toList body with
        | some (captured, _) => some captured
        | none => extractPreAux rest
    else extractPreAux rest

def extractPre (body : String) : Option String :=
  (extractPreAux body.toList).map String.mk

/-- Go regex `<[^>]+>` with `ReplaceAllString(text, "")`: remove each
bracketed run with at least one non-`>` character inside. -/
def stripTagsAux : List Char → List Char
  | [] => []
  | c :: rest =>
    if c = '<' then
      let inner := rest.takeWhile (· ≠ '>')
      match h : rest.dropWhile (· ≠ '>') with
      | '>' :: rest2 =>
        if inner.isEmpty then c :: stripTagsAux rest else stripTagsAux rest2
      | _ => c :: stripTagsAux rest
    else c :: stripTagsAux rest
termination_by l => l.length
decreasing_by
  · simp
  · have hle : (rest.dropWhile (· ≠ '>')).length ≤ rest.length :=
      (List.dropWhile_suffix (· ≠ '>')).length_le
    rw [h] at hle
    simp only [List.length_cons] at hle ⊢
    omega
  · simp
  · simp

/-- The cleanup `fetchMCDText` applies to a matched `<pre>` block: line-break
tags to newlines, strip remaining markup, unescape four entities. -/
def cleanMCDText (cs : List Char) : String :=
  let t := replaceAllSub "<br>".toList "\n".toList cs
  let t := replaceAllSub "<br/>".toList "\n".toList t
  let t := replaceAllSub "<br />".toList "\n".toList t
  let t := stripTagsAux t
  let t := replaceAllSub "&amp;".toList "&".toList t
  let t := replaceAllSub "&lt;".toList "<".toList t
  let t := replaceAllSub "&gt;".toList ">".toList t
  let t := replaceAllSub "&nbsp;".toList " ".toList t
  String.mk t

/-- Outcome of one discussion text-page request: a transport failure, a body
read failure, or a status code with the body that was read. -/
inductive TextPageResult where
  | transportErr (msg : String)
  | readErr (msg : String)
  | status (code : Nat) (body : String)
deriving DecidableEq, Repr

/-- The URL `fetchMCDText` builds for one discussion number. -/
def mcdTextURL (year : Nat) (num : String) : String :=
  "https://www.spc.noaa.gov/products/md/" ++ toString year ++ "/md" ++ num ++ ".html"

/-- `fetchMCDText` on the outcome of its single request: errors propagate, a
non-200 status is an error, a 200 body without a `<pre>` block yields the
empty string with no error, and a matched block is cleaned up. -/
def fetchMCDTextResult (r : TextPageResult) : Except String String :=
  match r with
  | .transportErr e => .error e
  | .readErr e => .error e
  | .status code body =>
    if code ≠ 200 then .error ("HTTP " ++ toString code)
    else
      match extractPreAux body.toList with
      | none => .ok ""
      | some text => .ok (cleanMCDText text)

/-- `fetchMCDText` routed through the per-URL response map. -/
def fetchMCDText (textHttp : String → TextPageResult) (year : Nat)
    (num : String) : Except String String :=
  fetchMCDTextResult (textHttp (mcdTextURL year num))

/-- The per-feature loop of `fetchMesoscaleDiscussions`: skip features with
nil geometry, skip features whose name trims to the empty string, fetch
the text page (a failure is logged and leaves the text empty), emit. -/
def processMCDFeatures (textHttp : String → TextPageResult) (year : Nat) :
    List MCDFeature → List MesoscaleDiscussionJSON
  | [] => []
  | f :: rest =>
    match f.geometry with
    | none => processMCDFeatures textHttp year rest
    | some g =>
      let mcdNum := trimMD f.properties.name
      if mcdNum = "" then processMCDFeatures textHttp year rest
      else
        let fullText :=
          match fetchMCDText textHttp year mcdNum with
          | .ok t => t
          | .error _ => ""
        { ID := "MCD " ++ mcdNum
          Name := f.properties.name
          FullText := fullText
          PopupInfo := f.properties.popupinfo
          FileDate := f.properties.idpFiledate
          Geometry := some g } :: processMCDFeatures textHttp year rest

/-- Outcome of the single MapServer geodata query. -/
inductive GeoQueryResult where
  | transportErr (msg : String)
  | badStatus (code : Nat)
  | readErr (msg : String)
  | decodeErr (msg : String)
  | ok (features : List MCDFeature)
deriving DecidableEq, Repr

/-- `fetchMesoscaleDiscussions`: any failure of the primary query is an
error of the whole call; otherwise the features are processed one by one
and per-item text failures never propagate. -/
def fetchMesoscaleDiscussions (geo : GeoQueryResult)
    (textHttp : String → TextPageResult) (year : Nat) :
    Except String (List MesoscaleDiscussionJSON) :=
  match geo with
  | .transportErr e => .error ("MCD MapServer fetch failed: " ++ e)
  | .badStatus code => .error ("MCD MapServer returned HTTP " ++ toString code)
  | .readErr e => .error ("failed to read MCD response: " ++ e)
  | .decodeErr e => .error ("failed to parse MCD JSON: " ++ e)
  | .ok features => .ok (processMCDFeatures textHttp year features)

/-- The sequence of text-page URLs the per-feature loop requests. -/
def mcdTextRequests (year : Nat) : List MCDFeature → List String
  | [] => []
  | f :: rest =>
    match f.geometry with
    | none => mcdTextRequests year rest
    | some _ =>
      let mcdNum := trimMD f.properties.name
      if mcdNum = "" then mcdTextRequests year rest
      else mcdTextURL year mcdNum :: mcdTextRequests year rest

/-! ## The browser-side text extractor `parseMCDText`

A direct model of the JavaScript function embedded in the page template.
Its regexes are specialised here: every pattern starts with a literal
label, so leftmost-match scanning positions are exactly the positions
where the label matches case-insensitively. -/

/-- The result record of `parseMCDText`. -/
structure ParsedMCD where
  area : String
  concerning : String
  valid : String
  summary : String
  discussion : String
  probability : String
  raw : String
deriving DecidableEq, Repr

/-- `rawText.substring(startIdx)` for the first occurrence of the anchor
phrase `MESOSCALE DISCUSSION` (the whole text when absent). -/
def mcdBody (cs : List Char) : List Char :=
  match splitAtSub "MESOSCALE DISCUSSION".toList cs with
  | some (_, post) => "MESOSCALE DISCUSSION".toList ++ post
  | none => cs

/-- First match of `label\.{3}(.+)` (flag `i`): the label, three dots, then
at least one non-line-break character captured to the end of the line. -/
def inline1Find (label : List Char) : List Char → Option (List Char)
  | [] => none
  | c :: rest =>
    if matchesCI label (c :: rest) then
      match (c :: rest).drop label.length with
      | '.' :: '.' :: '.' :: r =>
        let cap := r.takeWhile (fun x => ¬ isLineBreak x)
        if cap.isEmpty then inline1Find label rest else some cap
      | _ => inline1Find label rest
    else inline1Find label rest

/-- First match of `label\s+(.+)` (flag `i`): the label, then at least one
whitespace character, then a greedy same-line capture.  When everything
after the whitespace run is further whitespace the regex backtracks; the
capture then starts at the last whitespace character that is not a line
break (and trims to the empty string). -/
def inline2Find (label : List Char) : List Char → Option (List Char)
  | [] => none
  | c :: rest =>
    if matchesCI label (c :: rest) then
      match (c :: rest).drop label.length with
      | [] => inline2Find label rest
      | a :: after =>
        if isSpaceJS a then
          match (a :: after).dropWhile isSpaceJS with
          | x :: r2 => some ((x :: r2).takeWhile (fun y => ¬ isLineBreak y))
          | [] =>
            match after.reverse.dropWhile isLineBreak with
            | x :: _ => some [x]
            | [] => inline2Find label rest
        else inline2Find label rest
    else inline2Find label rest

/-- `getInline`: the first regex, then the whitespace fallback, then the
empty string; the capture is trimmed. -/
def getInline (label : List Char) (text : List Char) : List Char :=
  match inline1Find label text with
  | some cap => trimJS cap
  | none =>
    match inline2Find label text with
    | some cap => trimJS cap
    | none => []

/-- `[A-Z]` under flag `i`: any ASCII letter. -/
def isLetterAZ (c : Char) : Bool :=
  ('A' ≤ c ∧ c ≤ 'Z') ∨ ('a' ≤ c ∧ c ≤ 'z')

/-- The character class `[A-Z .]` under flag `i`. -/
def classAZdotSp (c : Char) : Bool :=
  isLetterAZ c || c == ' ' || c == '.'

/-- After consuming `need` more `[A-Z .]` characters, can the text continue
with three literal dots?  Implements `[A-Z .]{2,}\.{3}` with backtracking. -/
def dddSearch : Nat → List Char → Bool
  | 0, cs =>
    List.isPrefixOf "...".toList cs ||
      (match cs with
       | c :: rest => classAZdotSp c && dddSearch 0 rest
       | [] => false)
  | n + 1, cs =>
    match cs with
    | c :: rest => classAZdotSp c && dddSearch n rest
    | [] => false

/-- Lookahead alternative `\n[A-Z][A-Z .]{2,}\.{3}`. -/
def lookLabelLine (u : List Char) : Bool :=
  match u with
  | '\n' :: c1 :: rest => isLetterAZ c1 && dddSearch 2 rest
  | _ => false

/-- Lookahead alternative `[A-Z][A-Z]+\.{3}`: at least two letters followed
by three dots (the letter run is forced maximal because `.` is not a
letter). -/
def lookCapsDots (u : List Char) : Bool :=
  let run := u.takeWhile isLetterAZ
  decide (2 ≤ run.length) && List.isPrefixOf "...".toList (u.drop run.length)

/-- The block-terminating lookahead
`(?=\n[A-Z][A-Z .]{2,}\.{3}|\n\.\.|[A-Z][A-Z]+\.{3}|\nMESOSCALE|$)`. -/
def blockStop (u : List Char) : Bool :=
  lookLabelLine u || List.isPrefixOf "\n..".toList u || lookCapsDots u ||
    matchesCI "\nMESOSCALE".toList u || u.isEmpty

/-- Lazy `[\s\S]*?` up to the first position where the lookahead holds (the
end of the text always stops it). -/
def blockTake : List Char → List Char
  | [] => []
  | c :: rest => if blockStop (c :: rest) then [] else c :: blockTake rest

/-- First match of `label\.{3}[\s\S]*?(?=…)` (flag `i`), returning the
matched text with the leading `label\.{3}` already stripped. -/
def getBlockFind (label : List Char) : List Char → Option (List Char)
  | [] => none
  | c :: rest =>
    if matchesCI label (c :: rest) ∧
        List.isPrefixOf "...".toList ((c :: rest).drop label.length) then
      some (blockTake (((c :: rest).drop label.length).drop 3))
    else getBlockFind label rest

/-- `replace(/\s+/g, ' ')`: collapse each whitespace run to one space. -/
def collapseWS : List Char → List Char
  | [] => []
  | c :: rest =>
    if isSpaceJS c then ' ' :: collapseWS (rest.dropWhile isSpaceJS)
    else c :: collapseWS rest
termination_by l => l.length
decreasing_by
  · have hle : (rest.dropWhile isSpaceJS).length ≤ rest.length :=
      (List.dropWhile_suffix isSpaceJS).length_le
    simp only [List.length_cons]
    omega
  · simp

/-- `getBlock`: find the block match, drop its label head, collapse
whitespace, trim. -/
def getBlock (label : List Char) (text : List Char) : List Char :=
  match getBlockFind label text with
  | some mid => trimJS (collapseWS mid)
  | none => []

/-- The browser-side `parseMCDText`, field for field. -/
def parseMCDText (rawText : String) : ParsedMCD :=
  if rawText = "" then
    { area := "", concerning := "", valid := "", summary := ""
      discussion := "", probability := "", raw := "" }
  else
    let text := mcdBody rawText.toList
    { area := String.mk (getInline "AREA AFFECTED".toList text)
      concerning := String.mk (getInline "CONCERNING".toList text)
      valid := String.mk (getInline "VALID".toList text)
      summary := String.mk (getBlock "SUMMARY".toList text)
      discussion := String.mk (getBlock "DISCUSSION".toList text)
      probability := String.mk (getInline "PROBABILITY OF WATCH ISSUANCE".toList text)
      raw := String.mk text }

/-! ## Snapshot assembly and atomic persistence (`pollAndWrite`) -/

/-- PolledPayload is the full structure written to warnings.json.  The two
slice fields keep Go nilability (`none` would serialize as `null`). -/
structure PolledPayload where
  Warnings : Option (List WarningJSON)
  MesoscaleDiscussions : Option (List MesoscaleDiscussionJSON)
  LastUpdated : String
  Counter : Int
  UpdatedAtUTC : Int
deriving DecidableEq, Repr

/-- `encoding/json` string escaping (ASCII part, with the default HTML
escaping of `<`, `>` and `&`). -/
def escapeJSONChar (c : Char) : String :=
  if c = '"' then "\\\""
  else if c = '\\' then "\\\\"
  else if c = '\n' then "\\n"
  else if c = '\r' then "\\r"
  else if c = '\t' then "\\t"
  else if c = '<' then "\\u003c"
  else if c = '>' then "\\u003e"
  else if c = '&' then "\\u0026"
  else String.mk [c]

def encodeJSONString (s : String) : String :=
  "\"" ++ String.join (s.toList.map escapeJSONChar) ++ "\""

/-- A nilable Go `[]string`: `null` for nil, a JSON array otherwise. -/
def encodeStringSlice : Option (List String) → String
  | none => "null"
  | some l => "[" ++ String.intercalate "," (l.map encodeJSONString) ++ "]"

/-- A nilable `*GeoGeometry`: `null` for nil, the GeoJSON object otherwise
(the raw coordinates text is embedded verbatim). -/
def encodeGeometry : Option GeoGeometry → String
  | none => "null"
  | some g => "\x7b\"type\":" ++ encodeJSONString g.typ ++ ",\"coordinates\":" ++ g.coordinates ++ "\x7d"

def encodeWarning (w : WarningJSON) : String :=
  "\x7b\"id\":" ++ encodeJSONString w.ID ++
    ",\"type\":" ++ encodeJSONString w.typ ++
    ",\"description\":" ++ encodeJSONString w.Description ++
    ",\"area\":" ++ encodeJSONString w.Area ++
    ",\"severity\":" ++ encodeJSONString w.Severity ++
    ",\"time\":" ++ encodeJSONString w.Time ++
    ",\"expiresTime\":" ++ encodeJSONString w.ExpiresTime ++
    ",\"geometry\":" ++ encodeGeometry w.Geometry ++
    ",\"ugc\":" ++ encodeStringSlice w.UGC ++
    ",\"same\":" ++ encodeStringSlice w.SAME ++ "\x7d"

def encodeMCD (m : MesoscaleDiscussionJSON) : String :=
  "\x7b\"id\":" ++ encodeJSONString m.ID ++
    ",\"name\":" ++ encodeJSONString m.Name ++
    ",\"fullText\":" ++ encodeJSONString m.FullText ++
    ",\"popupInfo\":" ++ encodeJSONString m.PopupInfo ++
    ",\"idp_filedate\":" ++ toString m.FileDate ++
    ",\"geometry\":" ++ encodeGeometry m.Geometry ++ "\x7d"

def encodeWarningsSlice : Option (List WarningJSON) → String
  | none => "null"
  | some l => "[" ++ String.intercalate "," (l.map encodeWarning) ++ "]"

def encodeMCDSlice : Option (List MesoscaleDiscussionJSON) → String
  | none => "null"
  | some l => "[" ++ String.intercalate "," (l.map encodeMCD) ++ "]"

/-- `json.Marshal` of the payload: every field is emitted (no `omitempty`),
in struct order. -/
def encodePayload (p : PolledPayload) : String :=
  "\x7b\"warnings\":" ++ encodeWarningsSlice p.Warnings ++
    ",\"mesoscaleDiscussions\":" ++ encodeMCDSlice p.MesoscaleDiscussions ++
    ",\"lastUpdated\":" ++ encodeJSONString p.LastUpdated ++
    ",\"counter\":" ++ toString p.Counter ++
    ",\"updatedAtUTC\":" ++ toString p.UpdatedAtUTC ++ "\x7d"

/-- The file system visible to the poller: path to contents. -/
def FS : Type := String → Option String

/-- The effects one `pollAndWrite` call depends on: the two fetch outcomes,
the two timestamps taken during the cycle, and whether the temp write and
the rename succeed. -/
structure CycleEnv where
  alertsResult : Except String (List WarningJSON)
  mcdResult : Except String (List MesoscaleDiscussionJSON)
  lastUpdated : String
  nowUTC : Int
  writeOk : Bool
  renameOk : Bool

/-- Snapshot assembly: a failed MCD fetch degrades to the empty list, the
counter is the alert count. -/
def buildPayload (env : CycleEnv) (warnings : List WarningJSON) : PolledPayload :=
  let mCDs : List MesoscaleDiscussionJSON :=
    match env.mcdResult with
    | .error _ => []
    | .ok m => m
  { Warnings := some warnings
    MesoscaleDiscussions := some mCDs
    LastUpdated := env.lastUpdated
    Counter := Int.ofNat warnings.length
    UpdatedAtUTC := env.nowUTC }

/-- `pollAndWrite`: abort on a failed alert fetch; marshal; write the bytes
to `outputPath + ".tmp"`; rename the temp file over the target.  Returns
the new file system and the error, if any. -/
def pollAndWrite (env : CycleEnv) (outputPath : String) (fs : FS) :
    FS × Option String :=
  match env.alertsResult with
  | .error e => (fs, some ("fetch failed: " ++ e))
  | .ok warnings =>
    let payload := buildPayload env warnings
    let data := encodePayload payload
    let tmp := outputPath ++ ".tmp"
    if env.writeOk = false then (fs, some "write tmp failed")
    else
      let fs1 : FS := fun p => if p = tmp then some data else fs p
      if env.renameOk = false then (fs1, some "rename failed")
      else
        (fun p => if p = outputPath then some data
                  else if p = tmp then none
                  else fs1 p,
         none)

/-! ## Specification-side characterisations -/

/-- The retention test the per-feature MCD loop actually applies: geometry
present and a name that does not trim to the empty string. -/
def mcdKeep (f : MCDFeature) : Bool :=
  f.geometry.isSome && (trimMD f.properties.name != "")

/-- The discussion entry built for one retained feature. -/
def buildMCD (textHttp : String → TextPageResult) (year : Nat)
    (f : MCDFeature) : MesoscaleDiscussionJSON :=
  { ID := "MCD " ++ trimMD f.properties.name
    Name := f.properties.name
    FullText :=
      match fetchMCDText textHttp year (trimMD f.properties.name) with
      | .ok t => t
      | .error _ => ""
    PopupInfo := f.properties.popupinfo
    FileDate := f.properties.idpFiledate
    Geometry := f.geometry }

/-! ## Concrete fixtures used by the scenario theorems and witnesses -/

def geomPoly : GeoGeometry :=
  { typ := "Polygon", coordinates := "[[[0,0],[1,0],[1,1],[0,0]]]" }

/-- Scenario A, page 1, feature 1: an unexpired actual tornado warning. -/
def tornadoFeat : AlertFeature :=
  { geometry := some geomPoly
    properties :=
      { id := "urn:oid:tornado-1", event := "Tornado Warning"
        description := "a tornado warning", areaDesc := "County A"
        severity := "Extreme", status := "Actual"
        sent := "2025-01-01T00:00:00Z", expires := "2030-01-01T00:00:00Z"
        geocode := { UGC := some ["TXC001"], SAME := some ["048001"] } } }

/-- Scenario A, page 1, feature 2: an already expired actual warning. -/
def stsFeat : AlertFeature :=
  { geometry := some geomPoly
    properties :=
      { id := "urn:oid:sts-1", event := "Severe Thunderstorm Warning"
        description := "a storm warning", areaDesc := "County B"
        severity := "Severe", status := "Actual"
        sent := "2019-12-31T00:00:00Z", expires := "2020-01-01T00:00:00Z"
        geocode := { UGC := some ["TXC003"], SAME := some ["048003"] } } }

/-- Scenario A, page 1, feature 3: a feature with status `Exercise`. -/
def exerciseFeat : AlertFeature :=
  { geometry := none
    properties :=
      { id := "urn:oid:exercise-1", event := "Tornado Warning"
        description := "practice", areaDesc := "County C"
        severity := "Severe", status := "Exercise"
        sent := "2025-01-01T00:00:00Z", expires := ""
        geocode := { UGC := none, SAME := none } } }

def page2URL : String := "https://api.weather.gov/alerts/active?page=2"

/-- Scenario A upstream: page 1 advertises a next link, page 2 does not. -/
def c3http : String → PageResult := fun u =>
  if u = nwsAlertsURL then
    .ok { features := [tornadoFeat, stsFeat, exerciseFeat], paginationNext := some page2URL }
  else if u = page2URL then
    .ok { features := [], paginationNext := none }
  else .transportErr "unexpected URL"

/-- Fetch-time `now` for the scenarios: 2025-01-01T00:00:00Z. -/
def c3now : Int := 1735689600

def c3env : CycleEnv :=
  { alertsResult := .ok [toWarning tornadoFeat], mcdResult := .ok []
    lastUpdated := "Jan 1, 2025 at 12:00:00 UTC", nowUTC := c3now
    writeOk := true, renameOk := true }

/-- An actual alert whose expiry text is not a parseable timestamp. -/
def badExpiryFeat : AlertFeature :=
  { geometry := some geomPoly
    properties :=
      { id := "urn:oid:bad-expiry", event := "Special Weather Statement"
        description := "d", areaDesc := "County D"
        severity := "Moderate", status := "Actual"
        sent := "2025-01-01T00:00:00Z", expires := "not-a-date"
        geocode := { UGC := some [], SAME := some [] } } }

/-- An actual alert with no geometry and nil county/area code lists. -/
def noGeomFeat : AlertFeature :=
  { geometry := none
    properties :=
      { id := "urn:oid:no-geom", event := "Tornado Watch"
        description := "d", areaDesc := "County E"
        severity := "Severe", status := "Actual"
        sent := "2025-01-01T00:00:00Z", expires := ""
        geocode := { UGC := none, SAME := none } } }

/-- A discussion feature whose name has a geometry and digits: `MD 0091`. -/
def md91Feat : MCDFeature :=
  { geometry := some geomPoly
    properties :=
      { name := "MD 0091", folderpath := "spc"
        popupinfo := "popup", idpFiledate := 1735689600123 } }

/-- A discussion feature whose name contains no digits at all. -/
def noDigitsFeat : MCDFeature :=
  { geometry := some geomPoly
    properties :=
      { name := "TEST AREA", folderpath := "spc"
        popupinfo := "p", idpFiledate := 0 } }

/-- A discussion feature with digits in its name but no geometry. -/
def noGeomMCDFeat : MCDFeature :=
  { geometry := none
    properties :=
      { name := "MD 0092", folderpath := "spc"
        popupinfo := "p", idpFiledate := 0 } }

/-- Text-page upstream that answers not-found for every URL. -/
def notFoundTextHttp : String → TextPageResult := fun _ => .status 404 "not found"

/-- A cycle whose alert fetch failed. -/
def c1envErr : CycleEnv :=
  { alertsResult := .error "boom", mcdResult := .ok []
    lastUpdated := "t", nowUTC := 0, writeOk := true, renameOk := true }

/-- A file system holding a previous snapshot at every path. -/
def fs0 : FS := fun _ => some "old snapshot"

/-- A cycle whose alert fetch succeeded but whose MCD query timed out. -/
def c6env : CycleEnv :=
  { alertsResult := .ok [toWarning tornadoFeat], mcdResult := .error "timeout"
    lastUpdated := "t", nowUTC := 5, writeOk := true, renameOk := true }

/-! ## Helper lemmas -/

/-- The per-feature MCD loop is exactly filter-by-`mcdKeep` followed by the
per-feature build. -/
theorem processMCDFeatures_eq (textHttp : String → TextPageResult) (year : Nat)
    (l : List MCDFeature) :
    processMCDFeatures textHttp year l = (l.filter mcdKeep).map (buildMCD textHttp year) := by
  induction l with
  | nil => rfl
  | cons f rest ih =>
    cases hg : f.geometry with
    | none =>
      simp [processMCDFeatures, hg, mcdKeep, ih]
    | some g =>
      by_cases hn : trimMD f.properties.name = ""
      · simp [processMCDFeatures, hg, mcdKeep, hn, ih]
      · simp only [processMCDFeatures, hg, if_neg hn]
        rw [ih]
        have hk : mcdKeep f = true := by
          simp [mcdKeep, hg, hn]
        simp only [List.filter_cons, hk, if_pos rfl, List.map_cons]
        congr 1
        simp [buildMCD, hg]

/-- A failed occurrence search decomposes over `cons`. -/
theorem containsSub_cons_false {pat : List Char} {c : Char} {rest : List Char}
    (h : containsSub pat (c :: rest) = false) :
    List.isPrefixOf pat (c :: rest) = false ∧ containsSub pat rest = false := by
  cases hp : List.isPrefixOf pat (c :: rest) with
  | true => exfalso; simp [containsSub, splitAtSub, hp] at h
  | false =>
    refine ⟨rfl, ?_⟩
    simp only [containsSub, splitAtSub, hp] at h ⊢
    cases hs : splitAtSub pat rest with
    | none => simp
    | some ab =>
      rw [hs] at h
      simp at h

/-- No `<pre` occurrence means the block regex finds nothing. -/
theorem extractPreAux_eq_none {cs : List Char}
    (h : containsSub "<pre".toList cs = false) : extractPreAux cs = none := by
  induction cs with
  | nil => rfl
  | cons c rest ih =>
    obtain ⟨h1, h2⟩ := containsSub_cons_false h
    simp only [extractPreAux, h1, Bool.false_eq_true, if_neg, reduceCtorEq]
    exact ih h2

/-- The text-page URLs requested are exactly one per retained feature. -/
theorem mcdTextRequests_eq (year : Nat) (l : List MCDFeature) :
    mcdTextRequests year l =
      (l.filter mcdKeep).map (fun f => mcdTextURL year (trimMD f.properties.name)) := by
  induction l with
  | nil => rfl
  | cons f rest ih =>
    cases hg : f.geometry with
    | none => simp [mcdTextRequests, hg, mcdKeep, ih]
    | some g =>
      by_cases hn : trimMD f.properties.name = ""
      · simp [mcdTextRequests, hg, mcdKeep, hn, ih]
      · have hk : mcdKeep f = true := by simp [mcdKeep, hg, hn]
        simp only [mcdTextRequests, hg, if_neg hn, List.filter_cons, hk, if_true,
          List.map_cons]
        simp [ih]

/-! ## Claim theorems -/

/-- C2, counterexample: the code derives the discussion number with
`strings.TrimPrefix(name, "MD ")`, not by stripping non-digits.  The
feature named `TEST AREA` yields no digits at all, yet it is retained and
published with id `MCD TEST AREA`. -/
theorem c2_counterexample :
    digitsOf noDigitsFeat.properties.name = "" ∧
    processMCDFeatures notFoundTextHttp 2025 [noDigitsFeat] ≠ [] ∧
    (processMCDFeatures notFoundTextHttp 2025 [noDigitsFeat]).map (fun m => m.ID) =
      ["MCD TEST AREA"] := by
  refine ⟨by decide, ?_, by decide⟩
  decide

/-- C2, amended: the discussion number is the name with a leading `MD `
prefix trimmed (when present); a feature is dropped exactly when its
geometry is nil or the trimmed name is empty, and each retained feature is
published with id `MCD ` + trimmed name. -/
theorem c2_mcd_number_from_trimmed_name (textHttp : String → TextPageResult)
    (year : Nat) (l : List MCDFeature) :
    processMCDFeatures textHttp year l =
      (l.filter mcdKeep).map (buildMCD textHttp year) :=
  processMCDFeatures_eq textHttp year l

/-- C7: a feature named `MD 0091` whose text page answers 404 is still
published as the single discussion, with id `MCD 0091` and empty
`fullText`; and for an arbitrary text upstream the call still returns
`ok` (the per-item error never propagates). -/
theorem c7_text_failure_isolated :
    fetchMesoscaleDiscussions (.ok [md91Feat]) notFoundTextHttp 2025 =
      .ok [{ ID := "MCD 0091", Name := "MD 0091", FullText := ""
             PopupInfo := "popup", FileDate := 1735689600123
             Geometry := some geomPoly }] ∧
    ∀ tf : String → TextPageResult, ∃ l,
      fetchMesoscaleDiscussions (.ok [md91Feat]) tf 2025 = .ok l := by
  refine ⟨rfl, fun tf => ⟨_, rfl⟩⟩

/-- C9: every published discussion carries a non-nil geometry, and the text
page of a feature is only requested when the feature passes the retention
test — a nil-geometry feature is dropped before any text fetch. -/
theorem c9_null_geometry_dropped (textHttp : String → TextPageResult)
    (year : Nat) (l : List MCDFeature) :
    (∀ m ∈ processMCDFeatures textHttp year l, m.Geometry.isSome = true) ∧
    mcdTextRequests year l =
      (l.filter mcdKeep).map (fun f => mcdTextURL year (trimMD f.properties.name)) := by
  refine ⟨?_, mcdTextRequests_eq year l⟩
  intro m hm
  rw [processMCDFeatures_eq] at hm
  obtain ⟨f, hf, rfl⟩ := List.mem_map.mp hm
  have hk := List.of_mem_filter hf
  simp only [mcdKeep, Bool.and_eq_true] at hk
  simpa [buildMCD] using hk.1

/-- C9 witness: concrete two-feature input, one with nil geometry. -/
theorem c9_witness :
    (buildMCD notFoundTextHttp 2025 md91Feat).Geometry.isSome = true ∧
    mcdTextRequests 2025 [noGeomMCDFeat, md91Feat] = [mcdTextURL 2025 "0091"] := by
  constructor
  · exact (c9_null_geometry_dropped notFoundTextHttp 2025 [noGeomMCDFeat, md91Feat]).1
      (buildMCD notFoundTextHttp 2025 md91Feat) (by decide)
  · rw [(c9_null_geometry_dropped notFoundTextHttp 2025 [noGeomMCDFeat, md91Feat]).2]
    decide

/-- C10: a successfully fetched text page with no `<pre` in its body yields
the empty string and no error. -/
theorem c10_no_pre_block_is_ok_empty (body : String)
    (h : containsSub "<pre".toList body.toList = false) :
    fetchMCDTextResult (.status 200 body) = .ok "" := by
  have hex : extractPreAux body.data = none := extractPreAux_eq_none h
  simp [fetchMCDTextResult, hex]

/-- C10 witness: a concrete body without a preformatted block. -/
theorem c10_witness :
    containsSub "<pre".toList "<html>no block</html>".toList = false ∧
    fetchMCDTextResult (.status 200 "<html>no block</html>") = .ok "" :=
  ⟨by decide, c10_no_pre_block_is_ok_empty "<html>no block</html>" (by decide)⟩

/-- C4, counterexample: an `Actual` alert whose expiry text `not-a-date` is
not a parseable RFC3339 timestamp is retained, so its `expiresTime` is
neither empty nor parses to a time at or after the fetch time. -/
theorem c4_counterexample :
    ¬ (∀ w ∈ processFeatures parseRFC3339 c3now [badExpiryFeat],
        w.ExpiresTime = "" ∨
          ∃ t, parseRFC3339 w.ExpiresTime = some t ∧ c3now ≤ t) := by
  intro h
  rcases h (toWarning badExpiryFeat) (by decide) with h1 | ⟨t, ht, _⟩
  · exact absurd h1 (by decide)
  · rw [show (toWarning badExpiryFeat).ExpiresTime = "not-a-date" from rfl] at ht
    rw [show parseRFC3339 "not-a-date" = none from by decide] at ht
    exact Option.noConfusion ht

/-- C4, amended: every retained alert's `expiresTime` is empty, or fails to
parse as RFC3339, or parses to a time at or after the fetch time; a
present, parseable, strictly-past expiry is always dropped. -/
theorem c4_retained_expiry_not_parseably_past (parse : String → Option Int)
    (now : Int) (l : List AlertFeature) :
    ∀ w ∈ processFeatures parse now l,
      w.ExpiresTime = "" ∨ parse w.ExpiresTime = none ∨
        ∃ t, parse w.ExpiresTime = some t ∧ now ≤ t := by
  induction l with
  | nil => intro w hw; exact absurd hw (List.not_mem_nil w)
  | cons f rest ih =>
    intro w hw
    by_cases hs : f.properties.status ≠ "Actual"
    · rw [processFeatures, if_pos hs] at hw
      exact ih w hw
    · by_cases hd : f.properties.expires ≠ "" ∧ expiredBefore parse now f.properties.expires
      · rw [processFeatures, if_neg hs, if_pos hd] at hw
        exact ih w hw
      · rw [processFeatures, if_neg hs, if_neg hd] at hw
        rcases List.mem_cons.mp hw with rfl | hw'
        · push_neg at hd
          by_cases he : (toWarning f).ExpiresTime = ""
          · exact Or.inl he
          · have hexp : (toWarning f).ExpiresTime = f.properties.expires := rfl
            have hnb : expiredBefore parse now f.properties.expires = false := by
              have := hd (by rw [hexp] at he; exact he)
              exact Bool.not_eq_true _ ▸ by simpa using this
            rw [hexp]
            cases hp : parse f.properties.expires with
            | none => exact Or.inr (Or.inl rfl)
            | some t =>
              refine Or.inr (Or.inr ⟨t, rfl, ?_⟩)
              unfold expiredBefore at hnb
              rw [hp] at hnb
              simpa using hnb
        · exact ih w hw'

set_option maxRecDepth 8192 in
/-- C4 witness: the unexpired tornado warning is retained and its expiry
parses to a time after the fetch time. -/
theorem c4_witness :
    (toWarning tornadoFeat).ExpiresTime = "" ∨
      parseRFC3339 (toWarning tornadoFeat).ExpiresTime = none ∨
      ∃ t, parseRFC3339 (toWarning tornadoFeat).ExpiresTime = some t ∧ c3now ≤ t :=
  c4_retained_expiry_not_parseably_past parseRFC3339 c3now [tornadoFeat]
    (toWarning tornadoFeat) (by decide)

set_option maxRecDepth 16384 in
/-- C5, counterexample: an alert with no upstream geometry is published with
a nil geometry pointer, serialized as `"geometry":null` — the geometry
value is absent/null, contrary to the claim. -/
theorem c5_counterexample :
    (processFeatures parseRFC3339 c3now [noGeomFeat]).map (fun w => w.Geometry) = [none] ∧
    containsSub "\"geometry\":null".toList
      (encodeWarning (toWarning noGeomFeat)).toList = true := by
  constructor <;> decide

/-- C5, amended: for every published alert, `ugc` and `same` are non-nil
(possibly empty) arrays — nil upstream lists are normalized to empty —
while `geometry` is emitted as a field whose value may be `null`. -/
theorem c5_ugc_same_never_null (parse : String → Option Int) (now : Int)
    (l : List AlertFeature) :
    ∀ w ∈ processFeatures parse now l,
      (∃ u, w.UGC = some u) ∧ (∃ s, w.SAME = some s) := by
  induction l with
  | nil => intro w hw; exact absurd hw (List.not_mem_nil w)
  | cons f rest ih =>
    intro w hw
    by_cases hs : f.properties.status ≠ "Actual"
    · rw [processFeatures, if_pos hs] at hw
      exact ih w hw
    · by_cases hd : f.properties.expires ≠ "" ∧ expiredBefore parse now f.properties.expires
      · rw [processFeatures, if_neg hs, if_pos hd] at hw
        exact ih w hw
      · rw [processFeatures, if_neg hs, if_neg hd] at hw
        rcases List.mem_cons.mp hw with rfl | hw'
        · exact ⟨⟨_, rfl⟩, ⟨_, rfl⟩⟩
        · exact ih w hw'

/-- C5 witness: an alert whose upstream geocode lists are nil gets empty
arrays. -/
theorem c5_witness :
    (∃ u, (toWarning noGeomFeat).UGC = some u) ∧
      (∃ s, (toWarning noGeomFeat).SAME = some s) :=
  c5_ugc_same_never_null parseRFC3339 c3now [noGeomFeat]
    (toWarning noGeomFeat) (by decide)

set_option maxRecDepth 16384 in
/-- C3: scenario A — two pages, page 1 with an unexpired actual tornado
warning, an expired actual storm warning and an `Exercise` alert, page 2
without a next link: the fetch returns exactly the tornado warning,
exactly the two page URLs are requested in order, and the assembled
payload's counter is 1. -/
theorem c3_two_page_scenario :
    fetchAllAlerts c3http parseRFC3339 c3now 3 =
      some (.ok [toWarning tornadoFeat]) ∧
    requestTrace c3http 3 nwsAlertsURL = [nwsAlertsURL, page2URL] ∧
    (buildPayload c3env [toWarning tornadoFeat]).Counter = 1 := by
  refine ⟨by decide, by decide, by decide⟩

/-- The temp path differs from the target path. -/
theorem ne_appendTmp (s : String) : ¬ (s = s ++ ".tmp") := by
  intro h
  have h2 := congrArg String.length h
  rw [String.length_append] at h2
  have h4 : (".tmp" : String).length = 4 := by decide
  omega

/-- C1: when the alert fetch, the temp write, or the rename fails,
`pollAndWrite` returns an error and the target path's contents are
untouched; and the pagination loop only returns alerts when every
requested page was error-free (any page error aborts the fetch). -/
theorem c1_failed_cycle_preserves_target :
    (∀ (env : CycleEnv) (path : String) (fs : FS),
      ((∃ e, env.alertsResult = .error e) ∨ env.writeOk = false ∨ env.renameOk = false) →
      (pollAndWrite env path fs).2.isSome = true ∧
        (pollAndWrite env path fs).1 path = fs path) ∧
    (∀ (http : String → PageResult) (parse : String → Option Int) (now : Int)
        (fuel : Nat) (url : String) (ws : List WarningJSON),
      fetchAllAlertsAux http parse now fuel url = some (.ok ws) →
      ∀ u ∈ requestTrace http fuel url, isErrPage (http u) = false) := by
  constructor
  · intro env path fs hfail
    cases henv : env.alertsResult with
    | error e => simp [pollAndWrite, henv]
    | ok warnings =>
      have hwr : env.writeOk = false ∨ env.renameOk = false := by
        rcases hfail with ⟨e, he⟩ | h | h
        · rw [henv] at he; exact absurd he (by simp)
        · exact Or.inl h
        · exact Or.inr h
      cases hw : env.writeOk with
      | false => simp [pollAndWrite, henv, hw]
      | true =>
        have hr : env.renameOk = false := by
          rcases hwr with h | h
          · rw [hw] at h; exact absurd h (by simp)
          · exact h
        refine ⟨by simp [pollAndWrite, henv, hw, hr], ?_⟩
        simp only [pollAndWrite, henv, hw, hr]
        simp only [Bool.true_eq_false, if_false, if_true]
        rw [if_neg (ne_appendTmp path)]
  · intro http parse now fuel
    induction fuel with
    | zero =>
      intro url ws h
      exact absurd h (by simp [fetchAllAlertsAux])
    | succ n ih =>
      intro url ws h u hu
      by_cases hurl : url = ""
      · rw [requestTrace, if_pos hurl] at hu
        exact absurd hu (List.not_mem_nil u)
      · rw [fetchAllAlertsAux, if_neg hurl] at h
        rw [requestTrace, if_neg hurl] at hu
        cases hres : http url with
        | transportErr e =>
          rw [hres] at h; exact absurd h (by simp)
        | readErr e =>
          rw [hres] at h; exact absurd h (by simp)
        | badStatus code snip =>
          rw [hres] at h; exact absurd h (by simp)
        | decodeErr e =>
          rw [hres] at h; exact absurd h (by simp)
        | ok page =>
          rw [hres] at h hu
          dsimp only at h hu
          rcases List.mem_cons.mp hu with rfl | hu'
          · simp [isErrPage, hres]
          · cases hrec : fetchAllAlertsAux http parse now n (nextURL page) with
            | none => rw [hrec] at h; exact absurd h (by simp)
            | some r =>
              cases r with
              | error e2 => rw [hrec] at h; exact absurd h (by simp)
              | ok rest => exact ih (nextURL page) rest hrec u hu'

set_option maxRecDepth 16384 in
/-- C1 witness: a failed fetch leaves the prior snapshot in place; in the
successful two-page scenario the first requested page is error-free. -/
theorem c1_witness :
    ((pollAndWrite c1envErr "warnings.json" fs0).2.isSome = true ∧
      (pollAndWrite c1envErr "warnings.json" fs0).1 "warnings.json" =
        fs0 "warnings.json") ∧
    isErrPage (c3http nwsAlertsURL) = false := by
  constructor
  · exact c1_failed_cycle_preserves_target.1 c1envErr "warnings.json" fs0
      (Or.inl ⟨"boom", rfl⟩)
  · exact c1_failed_cycle_preserves_target.2 c3http parseRFC3339 c3now 3
      nwsAlertsURL [toWarning tornadoFeat] (by decide) nwsAlertsURL (by decide)

/-- C6: a failed MCD query does not fail the cycle — the snapshot is still
published, its `mesoscaleDiscussions` is the empty array (the serialized
payload literally contains the field with `[]`), and the alerts are
exactly what the alert fetch produced. -/
theorem c6_mcd_failure_degrades_to_empty (env : CycleEnv) (path : String)
    (fs : FS) (e : String) (ws : List WarningJSON)
    (hmcd : env.mcdResult = .error e) (halerts : env.alertsResult = .ok ws)
    (hw : env.writeOk = true) (hr : env.renameOk = true) :
    (pollAndWrite env path fs).2 = none ∧
    (pollAndWrite env path fs).1 path = some (encodePayload (buildPayload env ws)) ∧
    (buildPayload env ws).MesoscaleDiscussions = some [] ∧
    (buildPayload env ws).Warnings = some ws ∧
    ∃ a b, encodePayload (buildPayload env ws) =
      a ++ (",\"mesoscaleDiscussions\":[],\"lastUpdated\":" ++ b) := by
  have hpm : (buildPayload env ws).MesoscaleDiscussions = some [] := by
    simp [buildPayload, hmcd]
  have hpw : (buildPayload env ws).Warnings = some ws := by
    simp [buildPayload]
  refine ⟨?_, ?_, hpm, hpw, ?_⟩
  · simp [pollAndWrite, halerts, hw, hr]
  · simp [pollAndWrite, halerts, hw, hr]
  · refine ⟨"\x7b\"warnings\":" ++ encodeWarningsSlice (buildPayload env ws).Warnings,
      encodeJSONString (buildPayload env ws).LastUpdated ++
        (",\"counter\":" ++ (toString (buildPayload env ws).Counter ++
          (",\"updatedAtUTC\":" ++ (toString (buildPayload env ws).UpdatedAtUTC ++ "\x7d")))),
      ?_⟩
    rw [encodePayload, hpm]
    rw [show encodeMCDSlice (some ([] : List MesoscaleDiscussionJSON)) = "[]" from rfl]
    simp [String.append_assoc]

/-- C6 witness: concrete cycle with a timed-out MCD query. -/
theorem c6_witness :
    (pollAndWrite c6env "warnings.json" fs0).2 = none ∧
    (pollAndWrite c6env "warnings.json" fs0).1 "warnings.json" =
      some (encodePayload (buildPayload c6env [toWarning tornadoFeat])) ∧
    (buildPayload c6env [toWarning tornadoFeat]).MesoscaleDiscussions = some [] ∧
    (buildPayload c6env [toWarning tornadoFeat]).Warnings = some [toWarning tornadoFeat] ∧
    ∃ a b, encodePayload (buildPayload c6env [toWarning tornadoFeat]) =
      a ++ (",\"mesoscaleDiscussions\":[],\"lastUpdated\":" ++ b) :=
  c6_mcd_failure_degrades_to_empty c6env "warnings.json" fs0 "timeout"
    [toWarning tornadoFeat] rfl rfl rfl rfl

/-- Matching a pattern against itself (plus a tail) succeeds. -/
theorem matchesCI_self_append (pat t : List Char) : matchesCI pat (pat ++ t) = true := by
  induction pat with
  | nil => rfl
  | cons c cs ih => simp [matchesCI, ih]

/-- A pattern occurs in any list it is spliced into. -/
theorem containsCI_self_append (pat xs ys : List Char) :
    containsCI pat (xs ++ (pat ++ ys)) = true := by
  induction xs with
  | nil =>
    rw [List.nil_append]
    cases hp : pat ++ ys with
    | nil =>
      have hpe : pat = [] := (List.append_eq_nil.mp hp).1
      simp [hpe, containsCI, matchesCI]
    | cons a r =>
      have hm : matchesCI pat (a :: r) = true := by
        rw [← hp]; exact matchesCI_self_append pat ys
      simp [containsCI, hm]
  | cons x xs ih =>
    rw [List.cons_append, containsCI, ih]
    simp

/-- A failed case-insensitive search decomposes over `cons`. -/
theorem containsCI_cons_false {pat : List Char} {c : Char} {rest : List Char}
    (h : containsCI pat (c :: rest) = false) :
    matchesCI pat (c :: rest) = false ∧ containsCI pat rest = false := by
  rw [containsCI, Bool.or_eq_false_iff] at h
  exact h

theorem inline1Find_eq_none {lab cs : List Char}
    (h : containsCI lab cs = false) : inline1Find lab cs = none := by
  induction cs with
  | nil => rfl
  | cons c rest ih =>
    obtain ⟨hm, hrest⟩ := containsCI_cons_false h
    simp only [inline1Find, hm, Bool.false_eq_true, if_false]
    exact ih hrest

theorem inline2Find_eq_none {lab cs : List Char}
    (h : containsCI lab cs = false) : inline2Find lab cs = none := by
  induction cs with
  | nil => rfl
  | cons c rest ih =>
    obtain ⟨hm, hrest⟩ := containsCI_cons_false h
    simp only [inline2Find, hm, Bool.false_eq_true, if_false]
    exact ih hrest

theorem getBlockFind_eq_none {lab cs : List Char}
    (h : containsCI lab cs = false) : getBlockFind lab cs = none := by
  induction cs with
  | nil => rfl
  | cons c rest ih =>
    obtain ⟨hm, hrest⟩ := containsCI_cons_false h
    have hcond : ¬ (matchesCI lab (c :: rest) = true ∧
        List.isPrefixOf "...".toList ((c :: rest).drop lab.length) = true) := by
      intro hc
      rw [hm] at hc
      exact Bool.noConfusion hc.1
    simp only [getBlockFind, if_neg hcond]
    exact ih hrest

/-- An absent label yields an empty inline field. -/
theorem getInline_eq_nil {lab cs : List Char}
    (h : containsCI lab cs = false) : getInline lab cs = [] := by
  simp [getInline, inline1Find_eq_none h, inline2Find_eq_none h]

/-- An absent label yields an empty block field. -/
theorem getBlock_eq_nil {lab cs : List Char}
    (h : containsCI lab cs = false) : getBlock lab cs = [] := by
  simp [getBlock, getBlockFind_eq_none h]

/-- A successful split is an occurrence. -/
theorem splitAtSub_eq {pat cs a b : List Char}
    (h : splitAtSub pat cs = some (a, b)) : cs = a ++ (pat ++ b) := by
  induction cs generalizing a b with
  | nil =>
    by_cases hp : pat.isEmpty
    · have hpe : pat = [] := by
        cases pat with
        | nil => rfl
        | cons x xs => simp [List.isEmpty] at hp
      simp only [splitAtSub, hp, if_true, Option.some.injEq, Prod.mk.injEq] at h
      rw [← h.1, ← h.2, hpe]
      rfl
    · simp [splitAtSub, hp] at h
  | cons c rest ih =>
    cases hp : List.isPrefixOf pat (c :: rest) with
    | true =>
      simp only [splitAtSub, hp, if_true, Option.some.injEq, Prod.mk.injEq] at h
      obtain ⟨t, ht⟩ := List.isPrefixOf_iff_prefix.mp hp
      rw [← h.1, ← h.2, ← ht, List.drop_left]
      rfl
    | false =>
      simp only [splitAtSub, hp, Bool.false_eq_true, if_false] at h
      cases hs : splitAtSub pat rest with
      | none => rw [hs] at h; exact Option.noConfusion h
      | some ab =>
        obtain ⟨a', b'⟩ := ab
        rw [hs] at h
        simp only [Option.some.injEq, Prod.mk.injEq] at h
        rw [← h.1, ← h.2]
        rw [List.cons_append]
        exact congrArg (c :: ·) (ih hs)

/-- Without an (even case-sensitive) occurrence of `DISCUSSION` there is no
anchor occurrence, so the body is the whole text. -/
theorem mcdBody_of_no_discussion {cs : List Char}
    (h : containsCI "DISCUSSION".toList cs = false) : mcdBody cs = cs := by
  unfold mcdBody
  cases hsp : splitAtSub "MESOSCALE DISCUSSION".toList cs with
  | none => rfl
  | some ab =>
    exfalso
    obtain ⟨a, b⟩ := ab
    have hcs := splitAtSub_eq hsp
    have hsplit : ("MESOSCALE DISCUSSION".toList : List Char) =
        "MESOSCALE ".toList ++ "DISCUSSION".toList := by decide
    rw [hsplit] at hcs
    have htrue : containsCI "DISCUSSION".toList cs = true := by
      rw [hcs, List.append_assoc, ← List.append_assoc a]
      exact containsCI_self_append _ _ _
    rw [h] at htrue
    exact Bool.noConfusion htrue

/-- C8: the text extractor is a total function, and on input containing none
of the six labels (case-insensitively) every derived field is the empty
string while `raw` carries the input text unchanged. -/
theorem c8_no_labels_all_empty (s : String)
    (h1 : containsCI "AREA AFFECTED".toList s.toList = false)
    (h2 : containsCI "CONCERNING".toList s.toList = false)
    (h3 : containsCI "VALID".toList s.toList = false)
    (h4 : containsCI "SUMMARY".toList s.toList = false)
    (h5 : containsCI "DISCUSSION".toList s.toList = false)
    (h6 : containsCI "PROBABILITY OF WATCH ISSUANCE".toList s.toList = false) :
    parseMCDText s = { area := "", concerning := "", valid := "", summary := ""
                       discussion := "", probability := "", raw := s } := by
  by_cases hs : s = ""
  · subst hs; rfl
  · unfold parseMCDText
    rw [if_neg hs]
    simp only [mcdBody_of_no_discussion h5]
    simp only [getInline_eq_nil h1, getInline_eq_nil h2, getInline_eq_nil h3,
      getBlock_eq_nil h4, getBlock_eq_nil h5, getInline_eq_nil h6]
    rfl

/-- C8 witness: a concrete label-free text. -/
theorem c8_witness :
    containsCI "AREA AFFECTED".toList "the quick brown fox.".toList = false ∧
    parseMCDText "the quick brown fox." =
      { area := "", concerning := "", valid := "", summary := ""
        discussion := "", probability := "", raw := "the quick brown fox." } :=
  ⟨by decide,
    c8_no_labels_all_empty "the quick brown fox." (by decide) (by decide)
      (by decide) (by decide) (by decide) (by decide)⟩

end WDash
